import Mathlib

/-!
Shallow embedding of `src/cert_context.rs` from the schannel crate.

The Rust code wraps Windows CryptoAPI calls (`crypt32`). Every native call is
modelled by an explicit response value (an oracle): the embedding is a pure
function of the caller-visible inputs plus the bytes/flags the native layer
would report. Machine integers (`DWORD`, `BOOL`, `usize`) are modelled as
`Nat`, with explicit `% 2 ^ 32` at the places where the Rust code casts to a
32-bit value. A Rust function that can panic (assert!, arithmetic underflow,
slice out of bounds, `.unwrap()`) is modelled with the `Outcome` type below,
whose `panics` constructor marks process abortion as distinct from returning
`Err`.
-/

namespace Schannel

/-- Outcome of a fallible Rust call: abort of the process (panic / failed
assertion), `Err(io::Error)` carrying the OS error code, or `Ok`. -/
inductive Outcome (α : Type) where
  | panics : Outcome α
  | error (code : Nat) : Outcome α
  | ok (val : α) : Outcome α
  deriving DecidableEq, Repr

/-- True exactly on the `error` constructor (the Rust `Err` path). -/
def Outcome.isError {α : Type} : Outcome α → Bool
  | .error _ => true
  | _ => false

/-- True exactly on the `ok` constructor. -/
def Outcome.isOk {α : Type} : Outcome α → Bool
  | .ok _ => true
  | _ => false

/-- Constant `winapi::TRUE` (the Windows `BOOL` for success). -/
def TRUE : Nat := 1

/-- Constant `winapi::FALSE`. -/
def FALSE : Nat := 0

/-- Largest value of the 32-bit `winapi::DWORD` type
(`winapi::DWORD::max_value()`). -/
def DWORD_MAX : Nat := 4294967295

/-- Constant from cert_context.rs line 17. -/
def CRYPT_ACQUIRE_COMPARE_KEY_FLAG : Nat := 0x4

/-- Constant from cert_context.rs line 18. -/
def CRYPT_ACQUIRE_SILENT_FLAG : Nat := 0x40

/-- Constant from cert_context.rs line 19. -/
def CRYPT_ACQUIRE_ALLOW_NCRYPT_KEY_FLAG : Nat := 0x10000

/-- Constant `winapi::CERT_NCRYPT_KEY_SPEC` (winapi 0.2 value). -/
def CERT_NCRYPT_KEY_SPEC : Nat := 0xFFFFFFFF

/-- Constant `winapi::CERT_FRIENDLY_NAME_PROP_ID`. -/
def CERT_FRIENDLY_NAME_PROP_ID : Nat := 11

/-- Constant `winapi::CERT_SIGN_HASH_CNG_ALG_PROP_ID`. -/
def CERT_SIGN_HASH_CNG_ALG_PROP_ID : Nat := 89

/-- Constant `winapi::CALG_MD5`. -/
def CALG_MD5 : Nat := 0x8003

/-- Constant `winapi::CALG_SHA1`. -/
def CALG_SHA1 : Nat := 0x8004

/-- Constant `winapi::CALG_SHA_256`. -/
def CALG_SHA_256 : Nat := 0x800c

/-- Constant `winapi::CALG_SHA_384`. -/
def CALG_SHA_384 : Nat := 0x800d

/-- Constant `winapi::CALG_SHA_512`. -/
def CALG_SHA_512 : Nat := 0x800e

/-- Model of a native call writing `written` into a caller-provided buffer
`buf`: the buffer keeps its length, its first `written.length` slots take the
written values, the rest keep their old contents. -/
def writeInto (buf : List Nat) (written : List Nat) : List Nat :=
  written.take buf.length ++ buf.drop written.length

/-- Embedding of `pub struct HashAlgorithm(winapi::DWORD, usize)`: an
algorithm identifier and the digest length in bytes. -/
structure HashAlgorithm where
  algId : Nat
  len : Nat
  deriving DecidableEq, Repr

/-- Embedding of `HashAlgorithm::md5`. -/
def HashAlgorithm.md5 : HashAlgorithm := ⟨CALG_MD5, 16⟩

/-- Embedding of `HashAlgorithm::sha1`. -/
def HashAlgorithm.sha1 : HashAlgorithm := ⟨CALG_SHA1, 20⟩

/-- Embedding of `HashAlgorithm::sha256`. -/
def HashAlgorithm.sha256 : HashAlgorithm := ⟨CALG_SHA_256, 32⟩

/-- Embedding of `HashAlgorithm::sha384`. -/
def HashAlgorithm.sha384 : HashAlgorithm := ⟨CALG_SHA_384, 48⟩

/-- Embedding of `HashAlgorithm::sha512`. -/
def HashAlgorithm.sha512 : HashAlgorithm := ⟨CALG_SHA_512, 64⟩

/-- Response of the native `CryptHashCertificate` call: success flag, the
bytes it writes into the caller's digest buffer, and the OS error code that
`io::Error::last_os_error()` would report on failure. -/
structure HashResponse where
  hashOk : Bool
  written : List Nat
  errCode : Nat
  deriving DecidableEq, Repr

/-- Embedding of `CertContext::fingerprint`: allocate `vec![0u8; alg.1]`, let
the native call fill it, return `Err(last_os_error)` unless the native call
reports `TRUE`, otherwise return the buffer (whose length the in-place write
cannot change). -/
def CertContext.fingerprint (alg : HashAlgorithm) (o : HashResponse) :
    Outcome (List Nat) :=
  let buf := List.replicate alg.len 0
  let buf2 := writeInto buf o.written
  if o.hashOk = false then Outcome.error o.errCode
  else Outcome.ok buf2

/-- Embedding of `CertContext::is_time_valid`: `ret` is the `LONG` returned
by `CertVerifyTimeValidity`; the Rust code returns `Ok(ret == 0)`
unconditionally. -/
def CertContext.is_time_valid (ret : Int) : Outcome Bool :=
  Outcome.ok (ret == 0)

/-- Responses of the two `CryptStringToBinaryA` calls inside
`CertContext::from_pem` plus the `CertCreateCertificateContext` call inside
the `CertContext::new` it delegates to: success flag and reported decoded
byte length of the size query, success flag and decoded bytes of the filling
call, success flag of context creation, and the OS error codes reported on
each failed call. -/
structure PemResponse where
  queryOk : Bool
  queryLen : Nat
  fillOk : Bool
  decoded : List Nat
  createOk : Bool
  err1 : Nat
  err2 : Nat
  err3 : Nat
  deriving DecidableEq, Repr

/-- Model of the `CertContext` value: the DER bytes the native context was
created from. -/
structure CertContext where
  encoded : List Nat
  deriving DecidableEq, Repr

/-- Embedding of `CertContext::new`: the native create call either returns
null (mapped to `Err(last_os_error)`) or a context over the given bytes. -/
def CertContext.new (data : List Nat) (createOk : Bool) (errCode : Nat) :
    Outcome CertContext :=
  if createOk = false then Outcome.error errCode
  else Outcome.ok ⟨data⟩

/-- Embedding of `CertContext::from_pem` for an input of byte length
`pemLen`: `assert!(pem.len() <= winapi::DWORD::max_value() as usize)` panics
when the length exceeds the DWORD maximum, then the two-call decode runs and
delegates to `CertContext::new` on the filled buffer. -/
def CertContext.from_pem (pemLen : Nat) (o : PemResponse) :
    Outcome CertContext :=
  if pemLen > DWORD_MAX then Outcome.panics
  else if o.queryOk = false then Outcome.error o.err1
  else if o.fillOk = false then Outcome.error o.err2
  else CertContext.new (writeInto (List.replicate o.queryLen 0) o.decoded)
    o.createOk o.err3

/-- Release-relevant native calls made by `CertContext::delete`. Per the
platform contract, `CertDeleteCertificateFromStore` always releases the
certificate context passed to it (on success and on failure), and
`CertFreeCertificateContext` releases one reference; `mem::forget(self)`
suppresses the `Drop` impl so no `freeContext` call follows. -/
inductive NativeCall where
  | deleteFromStore : NativeCall
  | freeContext : NativeCall
  deriving DecidableEq, Repr

/-- Number of in-process references to the native certificate record the
given call releases. -/
def NativeCall.releases : NativeCall → Nat
  | .deleteFromStore => 1
  | .freeContext => 1

/-- Total reference releases performed by a trace of native calls. -/
def releaseCount (t : List NativeCall) : Nat :=
  (t.map NativeCall.releases).sum

/-- Embedding of `CertContext::delete`: call
`CertDeleteCertificateFromStore` (which releases the context reference),
`mem::forget(self)` so the `Drop` impl adds no `freeContext` call, then map
the native result to `Ok`/`Err(last_os_error)`. The returned trace lists the
release-relevant native calls the function body performed. -/
def CertContext.delete (deleteOk : Bool) (errCode : Nat) :
    Outcome Unit × List NativeCall :=
  let trace := [NativeCall.deleteFromStore]
  if deleteOk then (Outcome.ok (), trace) else (Outcome.error errCode, trace)

/-- Embedding of `struct AcquirePrivateKeyOptions`: only the `flags` DWORD
carries state (the `cert` field is a borrow of the certificate context and
does not influence the builder's flag word). -/
structure AcquirePrivateKeyOptions where
  flags : Nat
  deriving DecidableEq, Repr

/-- Embedding of `CertContext::private_key`: a fresh builder with
`flags: 0`. -/
def CertContext.private_key : AcquirePrivateKeyOptions := ⟨0⟩

/-- Embedding of `AcquirePrivateKeyOptions::flag`: `flags |= flag` when set,
`flags &= !flag` (32-bit complement) when cleared. -/
def AcquirePrivateKeyOptions.flag (o : AcquirePrivateKeyOptions) (f : Nat)
    (set : Bool) : AcquirePrivateKeyOptions :=
  if set then ⟨o.flags ||| f⟩ else ⟨o.flags &&& (DWORD_MAX ^^^ f)⟩

/-- Embedding of `AcquirePrivateKeyOptions::compare_key`. -/
def AcquirePrivateKeyOptions.compare_key (o : AcquirePrivateKeyOptions)
    (b : Bool) : AcquirePrivateKeyOptions :=
  o.flag CRYPT_ACQUIRE_COMPARE_KEY_FLAG b

/-- Embedding of `AcquirePrivateKeyOptions::silent`. -/
def AcquirePrivateKeyOptions.silent (o : AcquirePrivateKeyOptions)
    (b : Bool) : AcquirePrivateKeyOptions :=
  o.flag CRYPT_ACQUIRE_SILENT_FLAG b

/-- Builder states reachable from `CertContext::private_key` by chains of
`compare_key` and `silent` calls. -/
inductive Reachable : AcquirePrivateKeyOptions → Prop where
  | init : Reachable CertContext.private_key
  | compare_key (b : Bool) {o : AcquirePrivateKeyOptions} :
      Reachable o → Reachable (o.compare_key b)
  | silent (b : Bool) {o : AcquirePrivateKeyOptions} :
      Reachable o → Reachable (o.silent b)

/-- Embedding of `let flags = self.flags | CRYPT_ACQUIRE_ALLOW_NCRYPT_KEY_FLAG`
in `AcquirePrivateKeyOptions::acquire`: the flag word passed to
`CryptAcquireCertificatePrivateKey`. -/
def acquireFlags (o : AcquirePrivateKeyOptions) : Nat :=
  o.flags ||| CRYPT_ACQUIRE_ALLOW_NCRYPT_KEY_FLAG

/-- Embedding of `enum PrivateKey`: the discriminated private-key result,
each variant holding the opaque native handle passed to the wrapper type. -/
inductive PrivateKey where
  | CryptProv (handle : Nat) : PrivateKey
  | NcryptKey (handle : Nat) : PrivateKey
  deriving DecidableEq, Repr

/-- Out-values of `CryptAcquireCertificatePrivateKey`: success flag, the
`HCRYPTPROV_OR_NCRYPT_KEY_HANDLE`, the key-specification DWORD, the
"caller must free" BOOL, and the OS error code on failure. The `free`
out-parameter is initialized to `winapi::FALSE` by the Rust code before the
native call. -/
structure AcquireResponse where
  acqOk : Bool
  handle : Nat
  spec : Nat
  free : Nat
  errCode : Nat
  deriving DecidableEq, Repr

/-- Embedding of `AcquirePrivateKeyOptions::acquire`: the native call is
made with `acquireFlags o` (the oracle maps the passed flag word to a
response); on native failure return `Err(last_os_error)`; then
`assert!(free == winapi::TRUE)` panics unless the must-free indicator is
TRUE; finally the key-spec DWORD selects the variant via
`spec & CERT_NCRYPT_KEY_SPEC != 0`. -/
def AcquirePrivateKeyOptions.acquire (o : AcquirePrivateKeyOptions)
    (native : Nat → AcquireResponse) : Outcome PrivateKey :=
  let r := native (acquireFlags o)
  if r.acqOk = false then Outcome.error r.errCode
  else if r.free ≠ TRUE then Outcome.panics
  else if r.spec &&& CERT_NCRYPT_KEY_SPEC ≠ 0 then
    Outcome.ok (PrivateKey.NcryptKey r.handle)
  else
    Outcome.ok (PrivateKey.CryptProv r.handle)

/-- Unicode scalar value: what a Rust `char` may hold (no surrogates). A
Rust `&str` is modelled as a `List Nat` of scalar values. -/
def IsScalarValue (c : Nat) : Prop :=
  c < 0xD800 ∨ (0xDFFF < c ∧ c < 0x110000)

instance (c : Nat) : Decidable (IsScalarValue c) := by
  unfold IsScalarValue
  infer_instance

/-- UTF-16 encoding of one scalar value, as `char::encode_utf16` does it:
BMP values map to themselves, supplementary values to a surrogate pair. -/
def utf16EncodeChar (c : Nat) : List Nat :=
  if c < 0x10000 then [c]
  else [0xD800 + (c - 0x10000) / 0x400, 0xDC00 + (c - 0x10000) % 0x400]

/-- Embedding of `str::encode_utf16`: concatenation of the per-scalar
encodings. -/
def utf16Encode (s : List Nat) : List Nat :=
  s.flatMap utf16EncodeChar

/-- UTF-16 decoding of a `u16` sequence, as
`OsString::from_wide(..).into_string()` behaves on Windows: `none` exactly
when the sequence contains an unpaired surrogate, otherwise the scalar
values it denotes. -/
def utf16Decode : List Nat → Option (List Nat)
  | [] => some []
  | [c] =>
    if c < 0xD800 ∨ (0xDFFF < c ∧ c < 0x10000) then some [c] else none
  | c :: c2 :: rest =>
    if c < 0xD800 ∨ (0xDFFF < c ∧ c < 0x10000) then
      (utf16Decode (c2 :: rest)).map (fun s => c :: s)
    else if (0xD800 ≤ c ∧ c < 0xDC00) ∧ (0xDC00 ≤ c2 ∧ c2 < 0xE000) then
      (utf16Decode rest).map
        (fun s => (0x10000 + (c - 0xD800) * 0x400 + (c2 - 0xDC00)) :: s)
    else none

/-- Responses of the two `CertGetCertificateContextProperty` calls inside
`CertContext::get_string`: success flag and reported byte length of the size
query, success flag and the `u16` values the filling call writes into the
caller's buffer, and the OS error codes on failure. -/
structure PropResponse where
  queryOk : Bool
  queryLen : Nat
  fillOk : Bool
  fillWide : List Nat
  err1 : Nat
  err2 : Nat
  deriving DecidableEq, Repr

/-- Embedding of `CertContext::get_string`: size query (fail fast on
error), `amt = (len / 2) as usize`, allocate `vec![0u16; amt]`, filling call
(fail fast on error), then `&buf[..amt - 1]` — which panics when `amt = 0`
(unsigned underflow / slice out of range) — and
`OsString::from_wide(..).into_string().unwrap()` — which panics when the
wide characters are not valid UTF-16. -/
def CertContext.get_string (prop : Nat) (o : PropResponse) :
    Outcome (List Nat) :=
  if o.queryOk = false then Outcome.error o.err1
  else
    let amt := o.queryLen / 2
    let buf := writeInto (List.replicate amt 0) o.fillWide
    if o.fillOk = false then Outcome.error o.err2
    else if amt = 0 then Outcome.panics
    else
      match utf16Decode (buf.take (amt - 1)) with
      | some s => Outcome.ok s
      | none => Outcome.panics

/-- Embedding of `CertContext::friendly_name`. The `prop` argument of
`get_string` is `CERT_FRIENDLY_NAME_PROP_ID`. -/
def CertContext.friendly_name (o : PropResponse) : Outcome (List Nat) :=
  CertContext.get_string CERT_FRIENDLY_NAME_PROP_ID o

/-- Embedding of `CertContext::sign_hash_algorithms`. The `prop` argument of
`get_string` is `CERT_SIGN_HASH_CNG_ALG_PROP_ID`. -/
def CertContext.sign_hash_algorithms (o : PropResponse) :
    Outcome (List Nat) :=
  CertContext.get_string CERT_SIGN_HASH_CNG_ALG_PROP_ID o

/-- The `CRYPT_DATA_BLOB` passed to `CertSetCertificateContextProperty`:
`cbData` is a byte count (a DWORD, hence the 32-bit truncation of the
`as winapi::DWORD` cast) and `wide` the `u16` buffer `pbData` points to. -/
structure CryptDataBlob where
  cbData : Nat
  wide : List Nat
  deriving DecidableEq, Repr

/-- Data blob built by `CertContext::set_string` for input `s`:
`data = s.encode_utf16().chain(Some(0))` and
`cbData = (data.len() * 2) as winapi::DWORD`. -/
def set_string_blob (s : List Nat) : CryptDataBlob :=
  let data := utf16Encode s ++ [0]
  ⟨(data.length * 2) % 2 ^ 32, data⟩

/-- Embedding of `CertContext::set_string`: build the blob, call the native
property write, map its result to `Ok(())` or `Err(last_os_error)`. -/
def CertContext.set_string (prop : Nat) (s : List Nat) (setOk : Bool)
    (errCode : Nat) : Outcome Unit :=
  if setOk = false then Outcome.error errCode else Outcome.ok ()

/-- Embedding of `CertContext::set_friendly_name`. -/
def CertContext.set_friendly_name (s : List Nat) (setOk : Bool)
    (errCode : Nat) : Outcome Unit :=
  CertContext.set_string CERT_FRIENDLY_NAME_PROP_ID s setOk errCode

/-- Faithful read-back of a stored property blob by the native store: the
size query succeeds and reports the stored `cbData`, the filling call
succeeds and writes the first `cbData / 2` stored wide characters into the
caller's buffer. -/
def readBack (b : CryptDataBlob) : PropResponse :=
  ⟨true, b.cbData, true, b.wide.take (b.cbData / 2), 0, 0⟩

theorem writeInto_length (buf written : List Nat) :
    (writeInto buf written).length = buf.length := by
  simp only [writeInto, List.length_append, List.length_take, List.length_drop]
  omega

theorem writeInto_of_length_eq (n : Nat) (w : List Nat) (h : w.length = n) :
    writeInto (List.replicate n 0) w = w := by
  subst h
  simp [writeInto]

theorem utf16Decode_bmp (c : Nat) (rest : List Nat)
    (h : c < 0xD800 ∨ (0xDFFF < c ∧ c < 0x10000)) :
    utf16Decode (c :: rest) = (utf16Decode rest).map (fun s => c :: s) := by
  cases rest with
  | nil =>
    simp only [utf16Decode, if_pos h]
    rfl
  | cons c2 r2 =>
    simp only [utf16Decode, if_pos h]

theorem utf16Decode_pair (c c2 : Nat) (rest : List Nat)
    (h1 : 0xD800 ≤ c) (h2 : c < 0xDC00) (h3 : 0xDC00 ≤ c2) (h4 : c2 < 0xE000) :
    utf16Decode (c :: c2 :: rest) =
      (utf16Decode rest).map
        (fun s => (0x10000 + (c - 0xD800) * 0x400 + (c2 - 0xDC00)) :: s) := by
  simp only [utf16Decode]
  rw [if_neg (by omega), if_pos ⟨⟨h1, h2⟩, ⟨h3, h4⟩⟩]

theorem utf16_decode_encode (s : List Nat) (h : ∀ c ∈ s, IsScalarValue c) :
    utf16Decode (utf16Encode s) = some s := by
  induction s with
  | nil => rfl
  | cons c rest ih =>
    have hc : IsScalarValue c := h c (List.mem_cons_self c rest)
    have hrest := ih (fun x hx => h x (List.mem_cons_of_mem _ hx))
    have hstep : utf16Encode (c :: rest) = utf16EncodeChar c ++ utf16Encode rest := by
      simp [utf16Encode]
    rw [hstep]
    by_cases hbmp : c < 0x10000
    · have henc : utf16EncodeChar c = [c] := by
        rw [utf16EncodeChar, if_pos hbmp]
      rw [henc, List.cons_append, List.nil_append]
      rw [utf16Decode_bmp c _ ?side]
      case side =>
        rcases hc with h1 | h2
        · exact Or.inl h1
        · exact Or.inr ⟨h2.1, hbmp⟩
      rw [hrest]
      rfl
    · push_neg at hbmp
      have hlt : c < 0x110000 := by
        rcases hc with h1 | h2
        · omega
        · exact h2.2
      have henc : utf16EncodeChar c =
          [0xD800 + (c - 0x10000) / 0x400, 0xDC00 + (c - 0x10000) % 0x400] := by
        rw [utf16EncodeChar, if_neg (by omega)]
      rw [henc, List.cons_append, List.cons_append, List.nil_append]
      rw [utf16Decode_pair _ _ _ (by omega) (by omega) (by omega) (by omega)]
      rw [hrest, Option.map_some']
      have harith : 0x10000 + ((0xD800 + (c - 0x10000) / 0x400) - 0xD800) * 0x400
          + ((0xDC00 + (c - 0x10000) % 0x400) - 0xDC00) = c := by omega
      rw [harith]

/-- C1: for every successful `acquire()` on a builder (native call succeeded
and the must-free indicator is TRUE), the result is the `NcryptKey` variant
holding the native handle exactly when the returned key-specification DWORD
has a bit of `CERT_NCRYPT_KEY_SPEC` set, and the `CryptProv` variant holding
the handle exactly otherwise; the builder configuration `o` is arbitrary, so
the choice between the two (mutually exclusive) variants depends only on the
returned key-specification flag. -/
theorem acquire_variant_matches_key_spec (o : AcquirePrivateKeyOptions)
    (native : Nat → AcquireResponse)
    (hok : (native (acquireFlags o)).acqOk = true)
    (hfree : (native (acquireFlags o)).free = TRUE) :
    (o.acquire native
        = Outcome.ok (PrivateKey.NcryptKey (native (acquireFlags o)).handle)
      ↔ (native (acquireFlags o)).spec &&& CERT_NCRYPT_KEY_SPEC ≠ 0)
    ∧ (o.acquire native
        = Outcome.ok (PrivateKey.CryptProv (native (acquireFlags o)).handle)
      ↔ (native (acquireFlags o)).spec &&& CERT_NCRYPT_KEY_SPEC = 0) := by
  by_cases hs : (native (acquireFlags o)).spec &&& CERT_NCRYPT_KEY_SPEC = 0
  · simp [AcquirePrivateKeyOptions.acquire, hok, hfree, hs]
  · simp [AcquirePrivateKeyOptions.acquire, hok, hfree, hs]

/-- Witness for C1: concrete successful acquisition with key-spec 0 yields
the legacy `CryptProv` variant. -/
theorem acquire_variant_matches_key_spec_witness :
    AcquirePrivateKeyOptions.acquire ⟨0⟩ (fun _ => ⟨true, 7, 0, 1, 0⟩)
      = Outcome.ok (PrivateKey.CryptProv 7) :=
  (acquire_variant_matches_key_spec ⟨0⟩ (fun _ => ⟨true, 7, 0, 1, 0⟩)
    rfl rfl).2.mpr (by decide)

/-- C2: every builder state reachable from `private_key()` by `compare_key`
and `silent` calls passes a flag word to the native acquire call that has
the `CRYPT_ACQUIRE_ALLOW_NCRYPT_KEY_FLAG` bit (0x10000) set. -/
theorem acquire_flags_force_allow_ncrypt (o : AcquirePrivateKeyOptions)
    (h : Reachable o) :
    acquireFlags o &&& CRYPT_ACQUIRE_ALLOW_NCRYPT_KEY_FLAG
      = CRYPT_ACQUIRE_ALLOW_NCRYPT_KEY_FLAG := by
  clear h
  unfold acquireFlags CRYPT_ACQUIRE_ALLOW_NCRYPT_KEY_FLAG
  apply Nat.eq_of_testBit_eq
  intro i
  simp only [Nat.testBit_land, Nat.testBit_lor]
  rcases eq_or_ne i 16 with hi | hi
  · subst hi
    have h1 : Nat.testBit 65536 16 = true := by decide
    rw [h1]
    simp
  · have h2 : Nat.testBit 65536 i = false := by
      have h3 : (65536 : Nat) = 2 ^ 16 := by norm_num
      rw [h3, Nat.testBit_two_pow]
      simpa using fun hh => hi hh.symm
    rw [h2]
    simp

/-- Witness for C2: the state after `private_key().compare_key(true)` is
reachable and its acquire flag word has the 0x10000 bit set. -/
theorem acquire_flags_force_allow_ncrypt_witness :
    acquireFlags (CertContext.private_key.compare_key true)
      &&& CRYPT_ACQUIRE_ALLOW_NCRYPT_KEY_FLAG
      = CRYPT_ACQUIRE_ALLOW_NCRYPT_KEY_FLAG :=
  acquire_flags_force_allow_ncrypt (CertContext.private_key.compare_key true)
    (Reachable.compare_key true Reachable.init)

/-- C3: when the native acquire call succeeds but reports a must-free
indicator other than TRUE, `acquire()` aborts via the failed assertion
(panics, rather than returning a recoverable error); and whenever the
native layer reports must-free = TRUE on success, `acquire()` never
panics. -/
theorem acquire_must_free_assertion (o : AcquirePrivateKeyOptions)
    (native : Nat → AcquireResponse) :
    ((native (acquireFlags o)).acqOk = true →
      (native (acquireFlags o)).free ≠ TRUE →
      o.acquire native = Outcome.panics)
    ∧ (((native (acquireFlags o)).acqOk = true →
        (native (acquireFlags o)).free = TRUE) →
      o.acquire native ≠ Outcome.panics) := by
  constructor
  · intro hok hfree
    simp [AcquirePrivateKeyOptions.acquire, hok, hfree]
  · intro himp
    by_cases hok : (native (acquireFlags o)).acqOk = true
    · have hfree := himp hok
      by_cases hs : (native (acquireFlags o)).spec &&& CERT_NCRYPT_KEY_SPEC = 0
      · simp [AcquirePrivateKeyOptions.acquire, hok, hfree, hs]
      · simp [AcquirePrivateKeyOptions.acquire, hok, hfree, hs]
    · simp only [Bool.not_eq_true] at hok
      simp [AcquirePrivateKeyOptions.acquire, hok]

/-- Witness for C3: a successful native call with must-free FALSE makes
`acquire()` panic; one with must-free TRUE does not. -/
theorem acquire_must_free_assertion_witness :
    AcquirePrivateKeyOptions.acquire ⟨0⟩ (fun _ => ⟨true, 0, 0, 0, 0⟩)
        = Outcome.panics
    ∧ AcquirePrivateKeyOptions.acquire ⟨0⟩ (fun _ => ⟨true, 0, 0, 1, 0⟩)
        ≠ Outcome.panics :=
  ⟨(acquire_must_free_assertion ⟨0⟩ (fun _ => ⟨true, 0, 0, 0, 0⟩)).1 rfl
      (by decide),
    (acquire_must_free_assertion ⟨0⟩ (fun _ => ⟨true, 0, 0, 1, 0⟩)).2
      (fun _ => rfl)⟩

/-- C4: `is_time_valid()` never returns an error: for every native validity
code it returns `Ok(ret == 0)`, which is `Ok(true)` exactly when the code is
zero (and `Ok(false)` for every non-zero code). -/
theorem is_time_valid_never_errors (ret : Int) :
    CertContext.is_time_valid ret = Outcome.ok (ret == 0)
    ∧ (CertContext.is_time_valid ret = Outcome.ok true ↔ ret = 0)
    ∧ (ret ≠ 0 → CertContext.is_time_valid ret = Outcome.ok false)
    ∧ Outcome.isError (CertContext.is_time_valid ret) = false := by
  refine ⟨rfl, ?_, ?_, rfl⟩
  · simp [CertContext.is_time_valid]
  · intro h
    have hb : (ret == 0) = false := by
      simpa using h
    simp [CertContext.is_time_valid, hb]

/-- Witness for C4: validity code 1 (certificate expired or check failed)
maps to `Ok(false)`. -/
theorem is_time_valid_never_errors_witness :
    CertContext.is_time_valid 1 = Outcome.ok false :=
  (is_time_valid_never_errors 1).2.2.1 (by decide)

theorem fingerprint_ok_length (alg : HashAlgorithm) (o : HashResponse)
    (h : o.hashOk = true) :
    ∃ v, CertContext.fingerprint alg o = Outcome.ok v ∧ v.length = alg.len := by
  refine ⟨writeInto (List.replicate alg.len 0) o.written, ?_, ?_⟩
  · simp [CertContext.fingerprint, h]
  · rw [writeInto_length]
    simp

/-- C6: for each of the five supported hash algorithms, a successful
`fingerprint(algorithm)` call returns a byte vector whose length equals the
algorithm's declared digest length (16, 20, 32, 48, 64 bytes). -/
theorem fingerprint_digest_lengths (o : HashResponse) (h : o.hashOk = true) :
    (∃ v, CertContext.fingerprint HashAlgorithm.md5 o = Outcome.ok v
      ∧ v.length = 16)
    ∧ (∃ v, CertContext.fingerprint HashAlgorithm.sha1 o = Outcome.ok v
      ∧ v.length = 20)
    ∧ (∃ v, CertContext.fingerprint HashAlgorithm.sha256 o = Outcome.ok v
      ∧ v.length = 32)
    ∧ (∃ v, CertContext.fingerprint HashAlgorithm.sha384 o = Outcome.ok v
      ∧ v.length = 48)
    ∧ (∃ v, CertContext.fingerprint HashAlgorithm.sha512 o = Outcome.ok v
      ∧ v.length = 64) :=
  ⟨fingerprint_ok_length HashAlgorithm.md5 o h,
    fingerprint_ok_length HashAlgorithm.sha1 o h,
    fingerprint_ok_length HashAlgorithm.sha256 o h,
    fingerprint_ok_length HashAlgorithm.sha384 o h,
    fingerprint_ok_length HashAlgorithm.sha512 o h⟩

/-- Witness for C6: a concrete successful hash response gives a 20-byte sha1
fingerprint. -/
theorem fingerprint_digest_lengths_witness :
    ∃ v, CertContext.fingerprint HashAlgorithm.sha1 ⟨true, [], 0⟩
      = Outcome.ok v ∧ v.length = 20 :=
  (fingerprint_digest_lengths ⟨true, [], 0⟩ rfl).2.1

/-- C8: `delete()` returns `Ok(())` exactly when the native delete-from-store
call succeeds, returns the last OS error otherwise, and on both paths the
trace of release-relevant native calls it performs releases the in-process
certificate reference exactly once (the delete call releases it, and
`mem::forget` keeps the `Drop` impl from releasing it again). -/
theorem delete_result_and_single_release (deleteOk : Bool) (errCode : Nat) :
    ((CertContext.delete deleteOk errCode).1 = Outcome.ok () ↔ deleteOk = true)
    ∧ (deleteOk = false →
      (CertContext.delete deleteOk errCode).1 = Outcome.error errCode)
    ∧ releaseCount (CertContext.delete deleteOk errCode).2 = 1 := by
  cases deleteOk <;>
    simp [CertContext.delete, releaseCount, NativeCall.releases]

/-- Witness for C8: successful native delete yields `Ok(())`. -/
theorem delete_result_and_single_release_witness :
    (CertContext.delete true 5).1 = Outcome.ok () :=
  (delete_result_and_single_release true 5).1.mpr rfl

/-- C9: `from_pem` panics via the length assertion exactly on inputs longer
than the DWORD maximum; for inputs within the bound the assertion passes and
the outcome is that of the two-step decode (an error or a certificate,
never a panic). -/
theorem from_pem_length_assertion (pemLen : Nat) (o : PemResponse) :
    (pemLen > DWORD_MAX → CertContext.from_pem pemLen o = Outcome.panics)
    ∧ (pemLen ≤ DWORD_MAX →
      CertContext.from_pem pemLen o ≠ Outcome.panics) := by
  constructor
  · intro h
    simp [CertContext.from_pem, h]
  · intro h
    have h2 : ¬ pemLen > DWORD_MAX := by omega
    cases hq : o.queryOk <;> cases hf : o.fillOk <;> cases hc : o.createOk <;>
      simp [CertContext.from_pem, CertContext.new, h2, hq, hf, hc]

/-- Witness for C9: an input one byte past the DWORD maximum panics; an
empty input does not. -/
theorem from_pem_length_assertion_witness :
    CertContext.from_pem (DWORD_MAX + 1) ⟨true, 0, true, [], true, 0, 0, 0⟩
        = Outcome.panics
    ∧ CertContext.from_pem 0 ⟨true, 0, true, [], true, 0, 0, 0⟩
        ≠ Outcome.panics :=
  ⟨(from_pem_length_assertion (DWORD_MAX + 1)
      ⟨true, 0, true, [], true, 0, 0, 0⟩).1 (by decide),
    (from_pem_length_assertion 0
      ⟨true, 0, true, [], true, 0, 0, 0⟩).2 (by decide)⟩

/-- C10: when both native property calls succeed but the size query reports
a byte length of zero or one, the halved character count is zero, the
`amt - 1` slice bound underflows, and both wide-string getters
(`friendly_name`, `sign_hash_algorithms`) panic instead of returning an
error: they are not total over all successful native responses. -/
theorem get_string_zero_length_panics (o : PropResponse)
    (hq : o.queryOk = true) (hf : o.fillOk = true) (hl : o.queryLen ≤ 1) :
    CertContext.friendly_name o = Outcome.panics
    ∧ CertContext.sign_hash_algorithms o = Outcome.panics := by
  have hamt : o.queryLen / 2 = 0 := by omega
  constructor <;>
    simp [CertContext.friendly_name, CertContext.sign_hash_algorithms,
      CertContext.get_string, hq, hf, hamt]

/-- Witness for C10: a successful query reporting zero bytes makes
`friendly_name` panic. -/
theorem get_string_zero_length_panics_witness :
    CertContext.friendly_name ⟨true, 0, true, [], 0, 0⟩ = Outcome.panics :=
  (get_string_zero_length_panics ⟨true, 0, true, [], 0, 0⟩ rfl rfl
    (by decide)).1

/-- C5 (amended): for a wide-character string getter whose two native calls
succeed and whose reported byte length is at least 2: the byte length is
halved to obtain the character count, the allocated buffer holds exactly
that many wide characters, exactly one trailing wide character (the null
terminator) is stripped before conversion, conversion of valid text
succeeds, and — amended from the claim — the getter panics rather than
returning an error when the resulting wide characters are not valid
text. -/
theorem get_string_wide_protocol (prop : Nat) (o : PropResponse)
    (hq : o.queryOk = true) (hf : o.fillOk = true)
    (hamt : 1 ≤ o.queryLen / 2) :
    (∀ s, utf16Decode ((writeInto (List.replicate (o.queryLen / 2) 0)
        o.fillWide).take (o.queryLen / 2 - 1)) = some s →
      CertContext.get_string prop o = Outcome.ok s)
    ∧ (utf16Decode ((writeInto (List.replicate (o.queryLen / 2) 0)
        o.fillWide).take (o.queryLen / 2 - 1)) = none →
      CertContext.get_string prop o = Outcome.panics)
    ∧ (writeInto (List.replicate (o.queryLen / 2) 0) o.fillWide).length
        = o.queryLen / 2
    ∧ (writeInto (List.replicate (o.queryLen / 2) 0) o.fillWide).take
          (o.queryLen / 2 - 1)
        = (writeInto (List.replicate (o.queryLen / 2) 0) o.fillWide).dropLast := by
  have hne : o.queryLen / 2 ≠ 0 := by omega
  refine ⟨?_, ?_, ?_, ?_⟩
  · intro s hs
    simp [CertContext.get_string, hq, hf, hne, hs]
  · intro hs
    simp [CertContext.get_string, hq, hf, hne, hs]
  · rw [writeInto_length]
    simp
  · rw [List.dropLast_eq_take, writeInto_length]
    simp

/-- Witness for C5: a successful response storing the single character 104
followed by the terminator yields that character. -/
theorem get_string_wide_protocol_witness :
    CertContext.get_string CERT_FRIENDLY_NAME_PROP_ID
      ⟨true, 4, true, [104, 0], 0, 0⟩ = Outcome.ok [104] :=
  (get_string_wide_protocol CERT_FRIENDLY_NAME_PROP_ID
    ⟨true, 4, true, [104, 0], 0, 0⟩ rfl rfl (by decide)).1 [104] (by decide)

/-- Counterexample for C5 as stated: with both native calls successful and
the stored wide characters `[0xD800, 0]` (an unpaired surrogate before the
terminator), the resulting bytes are not valid text and `friendly_name`
panics at the `.unwrap()` — it does not return an error. -/
theorem get_string_invalid_text_not_error :
    CertContext.friendly_name ⟨true, 4, true, [0xD800, 0], 0, 0⟩
        = Outcome.panics
    ∧ Outcome.isError
        (CertContext.friendly_name ⟨true, 4, true, [0xD800, 0], 0, 0⟩)
        = false := by
  constructor <;> decide

theorem utf16Encode_replicate_97 (n : Nat) :
    utf16Encode (List.replicate n 97) = List.replicate n 97 := by
  induction n with
  | zero => rfl
  | succ k ih =>
    rw [List.replicate_succ]
    have hstep : utf16Encode (97 :: List.replicate k 97)
        = utf16EncodeChar 97 ++ utf16Encode (List.replicate k 97) := by
      simp [utf16Encode]
    rw [hstep, ih]
    rfl

theorem readBack_set_string_blob (s : List Nat)
    (hlen : ((utf16Encode s).length + 1) * 2 < 2 ^ 32) :
    readBack (set_string_blob s)
      = ⟨true, ((utf16Encode s).length + 1) * 2, true,
          utf16Encode s ++ [0], 0, 0⟩ := by
  have hdlen : (utf16Encode s ++ [0]).length = (utf16Encode s).length + 1 := by
    simp
  simp only [readBack, set_string_blob]
  rw [hdlen, Nat.mod_eq_of_lt hlen]
  have hamt : ((utf16Encode s).length + 1) * 2 / 2
      = (utf16Encode s ++ [0]).length := by
    rw [hdlen]
    omega
  rw [hamt, List.take_length]

/-- C7 (amended): for every name made of Unicode scalar values whose UTF-16
encoding plus the appended null terminator occupies fewer than 2^32 bytes
(so the `as DWORD` cast of the byte count does not truncate), a successful
`set_friendly_name` stores a blob whose faithful read-back through
`friendly_name` returns exactly the text written, with the appended
terminator removed and not included in the result. -/
theorem set_get_friendly_name_roundtrip (s : List Nat)
    (hs : ∀ c ∈ s, IsScalarValue c)
    (hlen : ((utf16Encode s).length + 1) * 2 < 2 ^ 32) :
    CertContext.set_friendly_name s true 0 = Outcome.ok ()
    ∧ CertContext.friendly_name (readBack (set_string_blob s))
        = Outcome.ok s := by
  refine ⟨rfl, ?_⟩
  rw [readBack_set_string_blob s hlen]
  have hdlen : (utf16Encode s ++ [0]).length = (utf16Encode s).length + 1 := by
    simp
  have hamt : ((utf16Encode s).length + 1) * 2 / 2
      = (utf16Encode s).length + 1 := by
    omega
  have hbuf : writeInto
      (List.replicate (((utf16Encode s).length + 1) * 2 / 2) 0)
      (utf16Encode s ++ [0]) = utf16Encode s ++ [0] := by
    rw [hamt]
    exact writeInto_of_length_eq _ _ hdlen
  have htake : (utf16Encode s ++ [0]).take
      (((utf16Encode s).length + 1) * 2 / 2 - 1) = utf16Encode s := by
    rw [hamt]
    simp only [Nat.add_sub_cancel]
    rw [List.take_append_of_le_length (Nat.le_refl _), List.take_length]
  simp only [CertContext.friendly_name, CertContext.get_string]
  simp only [hbuf, htake, utf16_decode_encode s hs]
  simp [hamt]

/-- Witness for C7: the two-character name `[104, 105]` round-trips. -/
theorem set_get_friendly_name_roundtrip_witness :
    CertContext.friendly_name (readBack (set_string_blob [104, 105]))
      = Outcome.ok [104, 105] :=
  (set_get_friendly_name_roundtrip [104, 105] (by decide) (by decide)).2

/-- Counterexample for C7 as stated: for the name of 2^31 copies of the
character 97 the `(data.len() * 2) as DWORD` cast truncates the stored byte
count to 2, so `set_friendly_name` succeeds, the faithful read-back through
`friendly_name` also succeeds, but it returns the empty text rather than
the text written. -/
theorem friendly_name_after_truncated_blob (n : Nat) (h1 : 1 ≤ n)
    (hmod : (n + 1) * 2 % 2 ^ 32 = 2) :
    CertContext.friendly_name (readBack (set_string_blob (List.replicate n 97)))
      = Outcome.ok [] := by
  have henc : utf16Encode (List.replicate n 97) = List.replicate n 97 :=
    utf16Encode_replicate_97 n
  have hrb : readBack (set_string_blob (List.replicate n 97))
      = ⟨true, 2, true, [97], 0, 0⟩ := by
    simp only [readBack, set_string_blob, henc]
    have hlen2 : (List.replicate n (97 : Nat) ++ [0]).length = n + 1 := by
      simp
    rw [hlen2, hmod]
    have htk : (List.replicate n (97 : Nat) ++ [0]).take (2 / 2) = [97] := by
      have h11 : 2 / 2 = 1 := rfl
      rw [h11]
      rw [List.take_append_of_le_length (by simpa using h1)]
      rw [List.take_replicate]
      have hmin : min 1 n = 1 := by omega
      rw [hmin]
      rfl
    rw [htk]
  rw [hrb]
  decide

theorem set_get_friendly_name_truncation :
    CertContext.set_friendly_name (List.replicate (2 ^ 31) 97) true 0
        = Outcome.ok ()
    ∧ CertContext.friendly_name
        (readBack (set_string_blob (List.replicate (2 ^ 31) 97)))
        = Outcome.ok []
    ∧ (List.replicate (2 ^ 31) 97 : List Nat) ≠ [] := by
  refine ⟨rfl, ?_, ?_⟩
  · exact friendly_name_after_truncated_blob (2 ^ 31) (by norm_num)
      (by norm_num)
  · intro h
    have hl := congrArg List.length h
    simp only [List.length_replicate, List.length_nil] at hl
    norm_num at hl

end Schannel
